import Mathlib

/-!
# Verification of the `hackfn` attribute macro

A shallow embedding of `src/lib.rs` of the `hackfn` crate: the token-level
parser `HackFn::parse` (lines 131-183), the attribute-argument parser
`Nothing` (lines 97-103), the code generator `hackfn` (lines 185-247), and
the run-time semantics of the generated `deref` accessor (lines 226-242).

Rust proc-macro token streams are sequences of token trees (identifiers,
punctuation, literals and delimited groups); `Tok` mirrors that shape.
-/

namespace Hackfn

/-- Delimiter of a proc-macro group token: `(...)`, `{...}` or `[...]`. -/
inductive Delim where
  | paren
  | brace
  | bracket
deriving DecidableEq

/-- A proc-macro token tree: identifier, punctuation character, literal, or
delimited group of nested tokens. -/
inductive Tok where
  | ident (s : String)
  | punct (c : Char)
  | lit (s : String)
  | group (d : Delim) (ts : List Tok)

/-- Whether a token is the punctuation character `c`. -/
def Tok.isPunct (c : Char) : Tok → Bool
  | .punct c2 => c2 = c
  | _ => false

/-- An outer attribute `#[...]`: the token sequence between the brackets.
Models `syn::Attribute` as far as this crate uses it. -/
structure Attr where
  tokens : List Tok

/-- Generic parameters and where-clause of the impl block. Models
`syn::Generics`: `params` is the token sequence between `<` and `>`,
`whereClause` the tokens of the where-clause when present. The source
parses the two separately (lib.rs lines 135 and 137) and stores the
where-clause back into the `Generics` value. -/
structure Generics where
  params : List Tok
  whereClause : Option (List Tok)

/-- Visibility of the method. Models `syn::Visibility`: inherited (no
tokens), `pub`, or `pub(...)` with a restriction. -/
inductive Vis where
  | inherited
  | pub (restriction : Option (List Tok))

/-- One method parameter: `ident : ty` (lib.rs lines 105-117). The type is
kept as its raw token sequence. -/
structure FnArg where
  ident : String
  ty : List Tok

/-- The parsed intermediate representation (lib.rs lines 119-129). -/
structure HackFn where
  impl_attrs : List Attr
  generics : Generics
  self_ty : List Tok
  fn_attrs : List Attr
  vis : Vis
  method : String
  args : List FnArg
  ret_ty : Option (List Tok)
  body : List Tok

/-- Splits a token sequence at the first token (at angle-bracket depth 0)
satisfying `stop`, tracking `<`/`>` nesting. Models how `syn::Type` (and
the where-clause predicates) consume tokens up to a terminator without
being confused by commas or braces nested inside angle brackets. -/
def splitTokens (stop : Tok → Bool) : Nat → List Tok → List Tok × List Tok
  | _, [] => ([], [])
  | depth, t :: ts =>
    if depth = 0 && stop t then ([], t :: ts)
    else
      let depth' := if t.isPunct '<' then depth + 1
        else if t.isPunct '>' then depth - 1 else depth
      let (a, b) := splitTokens stop depth' ts
      (t :: a, b)

/-- Terminators of the impl block's self type: the `where` keyword or the
brace-delimited impl body. -/
def stopSelfTy : Tok → Bool
  | .ident s => s = "where"
  | .group .brace _ => true
  | _ => false

/-- Terminator of a parameter's type inside the argument list: a comma at
angle-bracket depth 0. -/
def stopArgTy : Tok → Bool
  | .punct c => c = ','
  | _ => false

/-- Terminator of the return type: the brace-delimited method body. -/
def stopRetTy : Tok → Bool
  | .group .brace _ => true
  | _ => false

/-- Models `Attribute::parse_outer` (used at lib.rs lines 133 and 142):
collects each `#[...]` prefix in order and returns the remaining tokens. -/
def parseOuterAttrs : List Tok → List Attr × List Tok
  | .punct '#' :: .group .bracket a :: ts =>
    let (attrs, rest) := parseOuterAttrs ts
    (⟨a⟩ :: attrs, rest)
  | ts => ([], ts)

/-- Models `input.parse::<Generics>()` (lib.rs line 135): an optional
angle-bracketed parameter list. -/
def parseGenerics : List Tok → Except String (Generics × List Tok)
  | .punct '<' :: ts =>
    let (ps, rest) := splitTokens (Tok.isPunct '>') 0 ts
    match rest with
    | .punct '>' :: rest2 => .ok (⟨ps, none⟩, rest2)
    | _ => .error "expected closing angle bracket"
  | ts => .ok (⟨[], none⟩, ts)

/-- Models `input.parse::<Option<WhereClause>>()` (lib.rs line 137): when
the next token is `where`, the clause runs up to the impl body's brace. -/
def parseWhereClause : List Tok → Option (List Tok) × List Tok
  | .ident "where" :: ts =>
    let (ws, rest) := splitTokens stopRetTy 0 ts
    (some ws, rest)
  | ts => (none, ts)

/-- Models `impl_block.parse::<Visibility>()` (lib.rs line 143). -/
def parseVis : List Tok → Vis × List Tok
  | .ident "pub" :: .group .paren r :: ts => (.pub (some r), ts)
  | .ident "pub" :: ts => (.pub none, ts)
  | ts => (.inherited, ts)

/-- The receiver check of lib.rs lines 149-150: `Token![&]` then
`Token![self]`. Anything other than a leading `&` followed by the `self`
keyword is a parse error. -/
def parseReceiver : List Tok → Except String (List Tok)
  | .punct '&' :: .ident "self" :: rest => .ok rest
  | .punct '&' :: _ => .error "expected self"
  | _ => .error "expected ampersand"

/-- Models `FnArg::parse` (lib.rs lines 110-117): `ident : Type`, the type
running to the next depth-0 comma. -/
def parseFnArg : List Tok → Except String (FnArg × List Tok)
  | .ident x :: ts =>
    match ts with
    | .punct ':' :: ts2 =>
      let (ty, rest) := splitTokens stopArgTy 0 ts2
      if ty.isEmpty then .error "expected type" else .ok (⟨x, ty⟩, rest)
    | _ => .error "expected colon"
  | _ => .error "expected identifier"

/-- Fuelled form of the argument loop of lib.rs lines 152-159: while the
argument list is nonempty, expect a comma, stop if the comma was trailing,
otherwise parse one `FnArg`. The fuel only bounds the number of loop
iterations; `parseArgs` supplies enough for any input. -/
def parseArgsF : Nat → List Tok → Except String (List FnArg)
  | 0, _ => .error "out of fuel"
  | _ + 1, [] => .ok []
  | fuel + 1, .punct ',' :: ts =>
    if ts.isEmpty then .ok []
    else
      match parseFnArg ts with
      | .ok (a, rest) => (parseArgsF fuel rest).map (a :: ·)
      | .error e => .error e
  | _ + 1, _ => .error "expected comma"

/-- The argument loop of lib.rs lines 152-159. Each iteration consumes at
least one token, so `length + 1` fuel always suffices. -/
def parseArgs (ts : List Tok) : Except String (List FnArg) :=
  parseArgsF (ts.length + 1) ts

/-- `HackFn::parse` (lib.rs lines 131-183): outer attributes, `impl`,
generics, self type, optional where-clause, then the braced impl block
holding exactly one method `fn name(&self, args...) [-> ty] { body }`.
Returns the parsed `HackFn` and the tokens remaining after the impl
block. The final emptiness check on the impl block models syn's
unexpected-token error for a `braced!` buffer that is dropped before
being fully consumed (surfaced through `parse_macro_input!`). -/
def HackFn.parse (input : List Tok) : Except String (HackFn × List Tok) :=
  let (impl_attrs, in1) := parseOuterAttrs input
  match in1 with
  | .ident "impl" :: in2 =>
    match parseGenerics in2 with
    | .error e => .error e
    | .ok (generics0, in3) =>
      let (self_ty, in4) := splitTokens stopSelfTy 0 in3
      if self_ty.isEmpty then .error "expected type"
      else
        let (wc, in5) := parseWhereClause in4
        match in5 with
        | .group .brace impl_block :: in6 =>
          let (fn_attrs, ib1) := parseOuterAttrs impl_block
          let (vis, ib2) := parseVis ib1
          match ib2 with
          | .ident "fn" :: ib3 =>
            match ib3 with
            | .ident m :: ib4 =>
              match ib4 with
              | .group .paren argl :: ib5 =>
                match parseReceiver argl with
                | .error e => .error e
                | .ok arglRest =>
                  match parseArgs arglRest with
                  | .error e => .error e
                  | .ok args =>
                    let retParse : Except String (Option (List Tok) × List Tok) :=
                      match ib5 with
                      | .punct '-' :: .punct '>' :: ib5a =>
                        let (ty, rest) := splitTokens stopRetTy 0 ib5a
                        if ty.isEmpty then .error "expected type"
                        else .ok (some ty, rest)
                      | _ => .ok (none, ib5)
                    match retParse with
                    | .error e => .error e
                    | .ok (ret_ty, ib6) =>
                      match ib6 with
                      | .group .brace body :: ib7 =>
                        if ib7.isEmpty then
                          .ok (⟨impl_attrs, ⟨generics0.params, wc⟩, self_ty,
                            fn_attrs, vis, m, args, ret_ty, body⟩, in6)
                        else .error "unexpected token"
                      | _ => .error "expected curly braces"
              | _ => .error "expected parentheses"
            | _ => .error "expected identifier"
          | _ => .error "expected fn"
        | _ => .error "expected curly braces"
  | _ => .error "expected impl"

/-- `Nothing::parse` (lib.rs lines 97-103) consumes no tokens and always
succeeds; `parse_macro_input!(args as Nothing)` (line 187) then demands
that the whole attribute-argument stream was consumed. The composition
accepts exactly the empty stream. -/
def parseNothingArgs (input : List Tok) : Except String Unit :=
  if input.isEmpty then .ok () else .error "unexpected token"

/-- The first generated declaration (lib.rs lines 212-218): the forwarding
impl that re-declares the method on the self type. -/
structure FwdImpl where
  attrs : List Attr
  generics : Generics
  self_ty : List Tok
  fn_attrs : List Attr
  vis : Vis
  method : String
  params : List FnArg
  ret_ty : Option (List Tok)
  body : List Tok

/-- The second generated declaration (lib.rs lines 220-243): the `Deref`
impl whose target is `Fn(arg_types...) -> ret` and whose `deref` body
builds the forwarding closure. `closureParams` is the closure's parameter
list (line 228), `callArgs` the argument names forwarded to the method
after the receiver (line 231). -/
structure DerefImpl where
  attrs : List Attr
  generics : Generics
  self_ty : List Tok
  targetArgTypes : List (List Tok)
  targetRet : Option (List Tok)
  closureParams : List FnArg
  callMethod : String
  callArgs : List String

/-- The full expansion emitted by the macro (lib.rs lines 211-244). -/
structure Expansion where
  fwd : FwdImpl
  drf : DerefImpl

/-- The code generator (lib.rs lines 201-244): projects the parsed
`HackFn` into the two emitted impls exactly as the `quote!` template
interpolates its fields. -/
def expand (hf : HackFn) : Expansion where
  fwd :=
    { attrs := hf.impl_attrs
      generics := hf.generics
      self_ty := hf.self_ty
      fn_attrs := hf.fn_attrs
      vis := hf.vis
      method := hf.method
      params := hf.args
      ret_ty := hf.ret_ty
      body := hf.body }
  drf :=
    { attrs := hf.impl_attrs
      generics := hf.generics
      self_ty := hf.self_ty
      targetArgTypes := hf.args.map FnArg.ty
      targetRet := hf.ret_ty
      closureParams := hf.args
      callMethod := hf.method
      callArgs := hf.args.map FnArg.ident }

/-- The macro entry point `hackfn` (lib.rs lines 185-247): parse the
attribute arguments as `Nothing`, parse the annotated impl block, emit the
expansion. `parse_macro_input!` also errors when tokens remain after the
impl block. -/
def hackfn (args : List Tok) (input : List Tok) : Except String Expansion :=
  match parseNothingArgs args with
  | .error e => .error e
  | .ok _ =>
    match HackFn.parse input with
    | .error e => .error e
    | .ok (hf, rest) =>
      if rest.isEmpty then .ok (expand hf) else .error "unexpected token"

/-- Memory layout of a Rust type or value: size and alignment in bytes. -/
structure Layout where
  size : Nat
  align : Nat
deriving DecidableEq

/-- Run-time semantics of the generated `deref` accessor (lib.rs lines
226-242), for a target type `α`, argument tuple `β` and return type `γ`.
The synthesized closure's body applies the forwarding method to its
captured receiver (lines 229-232); the `transmute` of `self` (lines 238
and 241) makes the original receiver that capture, under the layout
assumption stated in the source comment (lines 224-225). Before
returning, the accessor runs
`assert_eq!(__size_of_closure, ::std::mem::size_of::<Self>())`
(line 240): it compares the sizes of the two layouts — and only the
sizes — and a failed assertion panics instead of returning the view. -/
def derefSem {α β γ : Type} (closureLayout selfLayout : Layout)
    (method : α → β → γ) (self : α) : Except String (β → γ) :=
  let view : β → γ := fun a => method self a
  if closureLayout.size = selfLayout.size then .ok view
  else .error "assertion failed"

/-! ## Concrete inputs

Token streams for the two doc-test scenarios of the crate (lib.rs lines
25-83, duplicated in tests/readme.rs), and builders that vary the parts
the claims quantify over. -/

/-- Argument list tokens of scenario 1: `&self, other: u32`. -/
def plusArgl : List Tok :=
  [.punct '&', .ident "self", .punct ',', .ident "other", .punct ':', .ident "u32"]

/-- Body tokens of scenario 1: `self.0 + other`. -/
def plusBody : List Tok :=
  [.ident "self", .punct '.', .lit "0", .punct '+', .ident "other"]

/-- Scenario 1's impl block with the argument list and body replaced:
`impl Plus { fn call(ARGL) -> u32 { BODY } }`. -/
def mkPlusDecl (argl : List Tok) (body : List Tok) : List Tok :=
  [.ident "impl", .ident "Plus",
   .group .brace [.ident "fn", .ident "call", .group .paren argl,
     .punct '-', .punct '>', .ident "u32", .group .brace body]]

/-- Scenario 1's annotated declaration:
`impl Plus { fn call(&self, other: u32) -> u32 { self.0 + other } }`. -/
def plusDecl : List Tok := mkPlusDecl plusArgl plusBody

/-- The `HackFn` value scenario 1 parses to. -/
def plusHackFn : HackFn :=
  ⟨[], ⟨[], none⟩, [.ident "Plus"], [], .inherited, "call",
   [⟨"other", [.ident "u32"]⟩], some [.ident "u32"], plusBody⟩

/-- Scenario 1's impl block with extra tokens appended inside the braces
after the single method. -/
def mkPlusDeclExtra (extra : List Tok) : List Tok :=
  [.ident "impl", .ident "Plus",
   .group .brace ([.ident "fn", .ident "call", .group .paren plusArgl,
     .punct '-', .punct '>', .ident "u32", .group .brace plusBody] ++ extra)]

/-- Renders a list of (name, type-identifier) parameters as the token tail
that follows `&self` in the argument list: `, n1: t1, n2: t2` with an
optional trailing comma. -/
def mkArgTokens : List (String × String) → Bool → List Tok
  | [], true => [.punct ',']
  | [], false => []
  | (n, t) :: ps, trailing =>
    .punct ',' :: .ident n :: .punct ':' :: .ident t :: mkArgTokens ps trailing

/-- The `FnArg` list that `mkArgTokens` should parse to. -/
def mkArgList (ps : List (String × String)) : List FnArg :=
  ps.map fun p => ⟨p.1, [.ident p.2]⟩

/-- Body tokens of scenario 2:
`self.first.set(self.first.get() + first); self.second.set(self.second.get() + second);`. -/
def accBody : List Tok :=
  [.ident "self", .punct '.', .ident "first", .punct '.', .ident "set",
   .group .paren [.ident "self", .punct '.', .ident "first", .punct '.',
     .ident "get", .group .paren [], .punct '+', .ident "first"],
   .punct ';',
   .ident "self", .punct '.', .ident "second", .punct '.', .ident "set",
   .group .paren [.ident "self", .punct '.', .ident "second", .punct '.',
     .ident "get", .group .paren [], .punct '+', .ident "second"],
   .punct ';']

/-- Scenario 2's annotated declaration:
`impl<T> AccumulatePairs<T> where T: Copy + Add<Output = T> { fn call(&self, first: T, second: T) { ... } }`. -/
def accDecl : List Tok :=
  [.ident "impl", .punct '<', .ident "T", .punct '>',
   .ident "AccumulatePairs", .punct '<', .ident "T", .punct '>',
   .ident "where", .ident "T", .punct ':', .ident "Copy", .punct '+',
   .ident "Add", .punct '<', .ident "Output", .punct '=', .ident "T", .punct '>',
   .group .brace [.ident "fn", .ident "call",
     .group .paren [.punct '&', .ident "self", .punct ',',
       .ident "first", .punct ':', .ident "T", .punct ',',
       .ident "second", .punct ':', .ident "T"],
     .group .brace accBody]]

/-- The `HackFn` value scenario 2 parses to. -/
def accHackFn : HackFn :=
  ⟨[], ⟨[.ident "T"],
     some [.ident "T", .punct ':', .ident "Copy", .punct '+', .ident "Add",
       .punct '<', .ident "Output", .punct '=', .ident "T", .punct '>']⟩,
   [.ident "AccumulatePairs", .punct '<', .ident "T", .punct '>'],
   [], .inherited, "call",
   [⟨"first", [.ident "T"]⟩, ⟨"second", [.ident "T"]⟩], none, accBody⟩

/-- The target type of scenario 1 (lib.rs lines 28-29): a wrapper around a
single u32 field. -/
structure Plus where
  v : Nat

/-- The method of scenario 1 (lib.rs lines 31-36): `self.0 + other`, with
u32 addition modelled as wrapping arithmetic on `Nat`. -/
def Plus.call (self : Plus) (other : Nat) : Nat :=
  (self.v + other) % 2 ^ 32

/-! ## Helper lemmas -/

/-- `mkArgTokens` is empty or starts with a comma. -/
theorem mkArgTokens_shape (ps : List (String × String)) (tb : Bool) :
    mkArgTokens ps tb = [] ∨ ∃ r, mkArgTokens ps tb = .punct ',' :: r := by
  cases ps with
  | nil => cases tb
           · exact Or.inl rfl
           · exact Or.inr ⟨[], rfl⟩
  | cons p ps => exact Or.inr ⟨_, rfl⟩

/-- A single-identifier parameter type splits off exactly before the next
comma (or the end of the argument list). -/
theorem splitTokens_ident_before_comma (t : String) (R : List Tok)
    (hR : R = [] ∨ ∃ r, R = .punct ',' :: r) :
    splitTokens stopArgTy 0 (.ident t :: R) = ([.ident t], R) := by
  rcases hR with rfl | ⟨r, rfl⟩ <;>
    simp [splitTokens, stopArgTy, Tok.isPunct]

/-- The argument loop parses a rendered parameter list, with or without a
trailing comma, to the same `FnArg` list, given enough fuel. -/
theorem parseArgsF_mkArgTokens (ps : List (String × String)) (tb : Bool) :
    ∀ fuel, (mkArgTokens ps tb).length < fuel →
      parseArgsF fuel (mkArgTokens ps tb) = .ok (mkArgList ps) := by
  induction ps with
  | nil =>
    intro fuel h
    match fuel, h with
    | fuel + 1, _ =>
      cases tb <;> simp [mkArgTokens, parseArgsF, mkArgList]
  | cons p ps ih =>
    obtain ⟨n, t⟩ := p
    intro fuel h
    match fuel, h with
    | fuel + 1, h =>
      have hsplit := splitTokens_ident_before_comma t (mkArgTokens ps tb)
        (mkArgTokens_shape ps tb)
      have hlen : (mkArgTokens ps tb).length < fuel := by
        simp only [mkArgTokens, List.length_cons] at h
        omega
      simp [mkArgTokens, parseArgsF, parseFnArg, hsplit, ih fuel hlen,
        Except.map, mkArgList]

/-! ## Claim theorems -/

/-- C1: For every well-formed annotated declaration, invoking the generated
callable view with arguments of the declared types yields the same result
as calling the forwarding method directly on the same receiver. In
particular a `&self` method with no parameters returning a constant `k`
yields `k` through the view, and scenario 1 (`Plus` wrapping `v = 1`, body
`v + other`, argument `2`) yields `3`. The view exists whenever the
layout check of the generated accessor passes. -/
theorem view_agrees_with_forwarding_method (cl sl : Layout)
    (h : cl.size = sl.size) (k : Nat) (p : Plus) :
    derefSem cl sl (fun (_ : Plus) (_ : Unit) => k) p = .ok (fun _ => k) ∧
    derefSem cl sl Plus.call p = .ok (Plus.call p) ∧
    hackfn [] plusDecl = .ok (expand plusHackFn) ∧
    Plus.call ⟨1⟩ 2 = 3 := by
  refine ⟨?_, ?_, rfl, by decide⟩ <;> simp [derefSem, h]

/-- Witness for `view_agrees_with_forwarding_method` at equal layouts. -/
theorem view_agrees_with_forwarding_method_witness :
    derefSem ⟨4, 4⟩ ⟨4, 4⟩ Plus.call ⟨1⟩ = .ok (Plus.call ⟨1⟩) ∧
    Plus.call ⟨1⟩ 2 = 3 :=
  ⟨(view_agrees_with_forwarding_method ⟨4, 4⟩ ⟨4, 4⟩ rfl 0 ⟨1⟩).2.1,
   (view_agrees_with_forwarding_method ⟨4, 4⟩ ⟨4, 4⟩ rfl 0 ⟨1⟩).2.2.2⟩

/-- C2 counterexample: the generated accessor's run-time check compares
only the sizes of the two layouts (lib.rs line 240 is
`assert_eq!(__size_of_closure, ::std::mem::size_of::<Self>())`). With a
closure layout of size 8 and alignment 4 against a target layout of size
8 and alignment 8 the layouts are not identical, yet the accessor returns
the view instead of terminating. -/
theorem size_only_check_passes_on_align_mismatch :
    (⟨8, 4⟩ : Layout) ≠ (⟨8, 8⟩ : Layout) ∧
    derefSem (⟨8, 4⟩ : Layout) (⟨8, 8⟩ : Layout)
      (fun (_ : Unit) (_ : Unit) => (0 : Nat)) () = .ok (fun _ => 0) :=
  ⟨by decide, rfl⟩

/-- C2 amended: at the moment the accessor executes it asserts that the
SIZE of the synthesized closure value equals the size of the target type
(alignment is not checked), and if this size check fails the running
program panics rather than returning the view. -/
theorem deref_checks_size_only {α β γ : Type} (cl sl : Layout)
    (m : α → β → γ) (self : α) :
    (cl.size ≠ sl.size → derefSem cl sl m self = .error "assertion failed") ∧
    (cl.size = sl.size → derefSem cl sl m self = .ok (fun a => m self a)) := by
  constructor <;> intro h <;> simp [derefSem, h]

/-- Witness for `deref_checks_size_only` at a size mismatch. -/
theorem deref_checks_size_only_witness :
    derefSem (⟨4, 8⟩ : Layout) (⟨8, 8⟩ : Layout)
      (fun (_ : Unit) (_ : Unit) => (0 : Nat)) () = .error "assertion failed" :=
  (deref_checks_size_only ⟨4, 8⟩ ⟨8, 8⟩ _ ()).1 (by decide)

/-- C3: a declaration whose method receiver is an owning `self`, a mutable
`&mut self`, or omitted entirely is rejected with a parse error; only
`&self` is accepted. The first three conjuncts cover the receiver check
itself (lib.rs lines 149-150) for every continuation of the argument
list; the remaining conjuncts run the full parser on scenario 1's
declaration with the receiver varied. -/
theorem receiver_must_be_ref_self :
    (∀ (s : String) (rest : List Tok),
      parseReceiver (.ident s :: rest) = .error "expected ampersand") ∧
    (∀ rest : List Tok,
      parseReceiver (.punct '&' :: .ident "mut" :: rest) = .error "expected self") ∧
    (∀ rest : List Tok,
      parseReceiver (.punct '&' :: .ident "self" :: rest) = .ok rest) ∧
    parseReceiver [] = .error "expected ampersand" ∧
    (∀ (s : String) (rest body : List Tok),
      HackFn.parse (mkPlusDecl (.ident s :: rest) body) =
        .error "expected ampersand") ∧
    (∀ rest body : List Tok,
      HackFn.parse (mkPlusDecl (.punct '&' :: .ident "mut" :: rest) body) =
        .error "expected self") ∧
    HackFn.parse plusDecl = .ok (plusHackFn, []) := by
  refine ⟨fun s rest => rfl, fun rest => rfl, fun rest => rfl, rfl, ?_, ?_, rfl⟩
  · intro s rest body
    simp [mkPlusDecl, HackFn.parse, parseOuterAttrs, parseGenerics, splitTokens,
      stopSelfTy, parseWhereClause, parseVis, parseReceiver, Tok.isPunct]
  · intro rest body
    simp [mkPlusDecl, HackFn.parse, parseOuterAttrs, parseGenerics, splitTokens,
      stopSelfTy, parseWhereClause, parseVis, parseReceiver, Tok.isPunct]

/-- C4: the generated code forwards the declared parameters in order:
the forwarding method's signature, the closure's parameter list, the
`Fn(...)` target's type list and the forwarded argument names all repeat
`args` in declared order, and a view produced by the accessor applies the
method to exactly the argument tuple it was invoked with. Scenario 2's
two-parameter declaration parses to its parameters in declared order. -/
theorem arguments_forwarded_in_declared_order (hf : HackFn) :
    (expand hf).fwd.params = hf.args ∧
    (expand hf).drf.closureParams = hf.args ∧
    (expand hf).drf.callArgs = hf.args.map FnArg.ident ∧
    (expand hf).drf.targetArgTypes = hf.args.map FnArg.ty ∧
    (∀ (α β γ : Type) (cl sl : Layout) (m : α → β → γ) (self : α) (a : β),
      (derefSem cl sl m self).map (fun v => v a) =
        (derefSem cl sl m self).map (fun _ => m self a)) ∧
    HackFn.parse accDecl = .ok (accHackFn, []) ∧
    accHackFn.args = [⟨"first", [.ident "T"]⟩, ⟨"second", [.ident "T"]⟩] := by
  refine ⟨rfl, rfl, rfl, rfl, ?_, rfl, rfl⟩
  intro α β γ cl sl m self a
  by_cases h : cl.size = sl.size <;> simp [derefSem, h, Except.map]

/-- C5: a trailing comma after the final parameter (or after `&self`
alone) is accepted, and parsing yields the same parameter list as without
it. The first two conjuncts cover the argument loop for every rendered
parameter list; the last two run the full parser on scenario 1 with a
trailing comma, and on `(&self,)`. -/
theorem trailing_comma_accepted (ps : List (String × String)) :
    parseArgs (mkArgTokens ps true) = .ok (mkArgList ps) ∧
    parseArgs (mkArgTokens ps false) = .ok (mkArgList ps) ∧
    HackFn.parse (mkPlusDecl (plusArgl ++ [.punct ',']) plusBody) =
      .ok (plusHackFn, []) ∧
    HackFn.parse (mkPlusDecl [.punct '&', .ident "self", .punct ','] plusBody) =
      .ok ({ plusHackFn with args := [] }, []) :=
  ⟨parseArgsF_mkArgTokens ps true _ (Nat.lt_succ_self _),
   parseArgsF_mkArgTokens ps false _ (Nat.lt_succ_self _),
   rfl, rfl⟩

/-- C6: the forwarding impl re-declares the method with the original
visibility, attributes, parameter list, return type and body unchanged;
the body is an opaque token sequence relocated verbatim: scenario 1's
declaration parses for EVERY body token sequence, stores it unchanged,
and the expansion relocates it unchanged. -/
theorem forwarding_method_verbatim (hf : HackFn) (body : List Tok) :
    (expand hf).fwd.vis = hf.vis ∧
    (expand hf).fwd.fn_attrs = hf.fn_attrs ∧
    (expand hf).fwd.method = hf.method ∧
    (expand hf).fwd.params = hf.args ∧
    (expand hf).fwd.ret_ty = hf.ret_ty ∧
    (expand hf).fwd.body = hf.body ∧
    HackFn.parse (mkPlusDecl plusArgl body) =
      .ok ({ plusHackFn with body := body }, []) ∧
    (expand { plusHackFn with body := body }).fwd.body = body := by
  refine ⟨rfl, rfl, rfl, rfl, rfl, rfl, ?_, rfl⟩
  simp [mkPlusDecl, HackFn.parse, parseOuterAttrs, parseGenerics, splitTokens,
    stopSelfTy, stopRetTy, stopArgTy, parseWhereClause, parseVis, parseReceiver,
    plusArgl, parseArgs, parseArgsF, parseFnArg, plusHackFn, Tok.isPunct, Except.map]

/-- C7: any tokens beyond the single method declaration inside the braces
make the parse fail, for every nonempty token suffix; the same impl block
without extra tokens is accepted, and a concrete second method is
rejected. -/
theorem impl_block_single_method_only (t : Tok) (ts : List Tok) :
    HackFn.parse (mkPlusDeclExtra (t :: ts)) = .error "unexpected token" ∧
    HackFn.parse (mkPlusDeclExtra []) = .ok (plusHackFn, []) ∧
    HackFn.parse (mkPlusDeclExtra
      [.ident "fn", .ident "call2",
       .group .paren [.punct '&', .ident "self"],
       .group .brace []]) = .error "unexpected token" := by
  refine ⟨?_, rfl, rfl⟩
  simp [mkPlusDeclExtra, HackFn.parse, parseOuterAttrs, parseGenerics, splitTokens,
    stopSelfTy, stopRetTy, stopArgTy, parseWhereClause, parseVis, parseReceiver,
    plusArgl, plusBody, parseArgs, parseArgsF, parseFnArg, Tok.isPunct, Except.map]

/-- C8: the outer attributes of the annotated block are replicated onto
both generated impls, and the block's generic parameters and where-clause
are copied verbatim onto both. Scenario 2's generics and where-clause are
captured verbatim as token sequences, and an arbitrary outer attribute on
scenario 1's declaration is parsed and replicated. -/
theorem attrs_generics_replicated_on_both_impls (hf : HackFn) :
    (expand hf).fwd.attrs = hf.impl_attrs ∧
    (expand hf).drf.attrs = hf.impl_attrs ∧
    (expand hf).fwd.generics = hf.generics ∧
    (expand hf).drf.generics = hf.generics ∧
    HackFn.parse accDecl = .ok (accHackFn, []) ∧
    (∀ a : List Tok,
      HackFn.parse (.punct '#' :: .group .bracket a :: plusDecl) =
        .ok ({ plusHackFn with impl_attrs := [⟨a⟩] }, [])) ∧
    (∀ a : List Tok,
      (expand { plusHackFn with impl_attrs := [⟨a⟩] }).fwd.attrs = [⟨a⟩] ∧
      (expand { plusHackFn with impl_attrs := [⟨a⟩] }).drf.attrs = [⟨a⟩]) := by
  refine ⟨rfl, rfl, rfl, rfl, rfl, ?_, fun a => ⟨rfl, rfl⟩⟩
  intro a
  simp [plusDecl, mkPlusDecl, HackFn.parse, parseOuterAttrs, parseGenerics,
    splitTokens, stopSelfTy, stopRetTy, stopArgTy, parseWhereClause, parseVis,
    parseReceiver, plusArgl, parseArgs, parseArgsF, parseFnArg, plusHackFn,
    Tok.isPunct, Except.map]

/-- C9: two independent accesses of the callable view on the same object
each pass the layout check under the same condition and, for equal
argument tuples, the two invocations return equal results — and each
equals the forwarding method's result (idempotence of read-only state). -/
theorem repeated_view_access_idempotent {α β γ : Type} (cl sl : Layout)
    (m : α → β → γ) (self : α) (v1 v2 : β → γ) (a b : β) (hab : a = b)
    (h1 : derefSem cl sl m self = .ok v1)
    (h2 : derefSem cl sl m self = .ok v2) :
    v1 a = v2 b ∧ v1 a = m self a := by
  subst hab
  simp only [derefSem] at h1 h2
  by_cases h : cl.size = sl.size
  · rw [if_pos h] at h1 h2
    cases h1
    cases h2
    exact ⟨rfl, rfl⟩
  · rw [if_neg h] at h1
    cases h1

/-- Witness for `repeated_view_access_idempotent` on scenario 1. -/
theorem repeated_view_access_idempotent_witness :
    Plus.call ⟨1⟩ 2 = Plus.call ⟨1⟩ 2 ∧ Plus.call ⟨1⟩ 2 = Plus.call ⟨1⟩ 2 :=
  repeated_view_access_idempotent ⟨4, 4⟩ ⟨4, 4⟩ Plus.call ⟨1⟩
    (Plus.call ⟨1⟩) (Plus.call ⟨1⟩) 2 2 rfl rfl rfl

/-- C10: the attribute accepts no arguments: any nonempty attribute
argument list is a compile-time error regardless of the annotated input,
while the empty argument list is accepted and never fails for that
reason. -/
theorem attr_args_must_be_empty (t : Tok) (ts input : List Tok) :
    hackfn (t :: ts) input = .error "unexpected token" ∧
    parseNothingArgs [] = .ok () ∧
    hackfn [] plusDecl = .ok (expand plusHackFn) :=
  ⟨rfl, rfl, rfl⟩

end Hackfn
